import Mathlib

/-!
Verification development for the itch-io publishing scripts.

The development shallowly embeds the three scripts that the claims are about:

* `src/scripts/publish.js` — the multi-channel publish orchestrator
  (namespace `Publish`): `pushChannel`, the per-channel loop of `main`,
  the summary rendering, and the process exit behaviour.  The external
  world (filesystem existence checks and the transfer-tool subprocess)
  is modelled by an explicit environment `Publish.Env`; the list of
  commands handed to the external tool is returned explicitly so that
  claims about "zero external process executions" are statable.
* `src/scripts/godot-export.js` — the Godot build scanner
  (namespace `Godot`): `detectPlatform`, `scanBuildDir`,
  `generateCommands` and the exit behaviour of `main`.  A JavaScript
  object keyed by platform is modelled as an association list with
  JS-object assignment semantics (`objInsert`: replace in place, else
  append), which preserves both insertion order and last-write-wins.
* `src/scripts/renpy-publish.js` — the RenPy build scanner
  (namespace `Renpy`): the `PLATFORMS` check table and `detectPlatform`
  with its directory-name fallback.

JavaScript string operations are modelled on `String.data` character
lists: `jsIncludes` is `String.prototype.includes`, `jsEndsWith` is
`String.prototype.endsWith`, `jsToLower` is `toLowerCase` (ASCII, which
is all the scripts compare).
-/

/-- Substring test on character lists: `listIncludes sub s` holds iff
`sub` occurs contiguously inside `s` (the semantics of JavaScript
`String.prototype.includes`). -/
def listIncludes : List Char → List Char → Bool
  | sub, [] => sub.isEmpty
  | sub, c :: t => sub.isPrefixOf (c :: t) || listIncludes sub t

/-- JavaScript `s.includes(sub)`. -/
def jsIncludes (s sub : String) : Bool :=
  listIncludes sub.data s.data

/-- JavaScript `s.endsWith(suffix)`. -/
def jsEndsWith (s suffix : String) : Bool :=
  suffix.data.isSuffixOf s.data

/-- JavaScript `s.toLowerCase()`, modelled characterwise (the scripts
only lowercase ASCII names). -/
def jsToLower (s : String) : String :=
  String.mk (s.data.map Char.toLower)

namespace Godot

/-- One entry of a directory listing as `fs.readdirSync` plus the
`statSync(...).isFile()` bit the script consults: the entry name and
whether it is a regular file. -/
structure FileEntry where
  name : String
  isFile : Bool
deriving DecidableEq, Repr

/-- The platform tags of godot-export.js, in the declaration order of
its `PLATFORMS` object. -/
inductive GPlatform
  | windows
  | linux
  | macos
  | web
  | android
deriving DecidableEq, Repr

/-- Channel and display name of each platform, from the `PLATFORMS`
table of godot-export.js. -/
def PLATFORMS : GPlatform → String × String
  | .windows => ("windows", "Windows Desktop")
  | .linux => ("linux", "Linux/X11")
  | .macos => ("osx", "macOS")
  | .web => ("html5", "Web (HTML5)")
  | .android => ("android", "Android")

/-- The declaration order of the keys of the `PLATFORMS` object in
godot-export.js. -/
def platformSpecOrder : List GPlatform :=
  [.windows, .linux, .macos, .web, .android]

/-- `detectPlatform` of godot-export.js: classify a directory from its
immediate listing.  Checks, in source order: `index.html`, `.exe`,
the `.app`/`.zip` macOS block (which falls through when the only zip is
not a mac zip and there is no `.app`), `.apk`/`.aab`, and finally the
extension-less regular-file fallback for Linux. -/
def detectPlatform (files : List FileEntry) : Option GPlatform :=
  let names := files.map FileEntry.name
  if "index.html" ∈ names then some .web
  else if names.any (fun f => jsEndsWith f ".exe") then some .windows
  else
    let macCase : Option GPlatform :=
      if names.any (fun f => jsEndsWith f ".app") || names.any (fun f => jsEndsWith f ".zip") then
        match names.find? (fun f => jsEndsWith f ".zip") with
        | some zip =>
          if jsIncludes zip "mac" || jsIncludes zip "osx" then some .macos
          else if (names.find? (fun f => jsEndsWith f ".app")).isSome then some .macos
          else none
        | none =>
          if (names.find? (fun f => jsEndsWith f ".app")).isSome then some .macos
          else none
      else none
    match macCase with
    | some p => some p
    | none =>
      if names.any (fun f => jsEndsWith f ".apk" || jsEndsWith f ".aab") then some .android
      else if 0 < (files.filter (fun e => !jsIncludes e.name "." && e.isFile)).length then
        some .linux
      else none

/-- One immediate subdirectory of the build root: its full path
(`path.join(buildDir, f)`), its basename, and its immediate listing. -/
structure DirEntry where
  path : String
  base : String
  files : List FileEntry
deriving DecidableEq, Repr

/-- Assignment to a JavaScript object key, `platforms[k] = v`: replace
the value in place if the key is present, otherwise append the pair at
the end (JS string-keyed objects preserve insertion order). -/
def objInsert : List (GPlatform × String) → GPlatform → String → List (GPlatform × String)
  | [], k, v => [(k, v)]
  | pr :: rest, k, v => if pr.1 = k then (k, v) :: rest else pr :: objInsert rest k v

/-- Key lookup in the association-list model of a JS object. -/
def objLookup : List (GPlatform × String) → GPlatform → Option String
  | [], _ => none
  | pr :: rest, k => if pr.1 = k then some pr.2 else objLookup rest k

/-- The loop body of `scanBuildDir`: walk the subdirectory entries in
enumeration order, inserting classified ones into the platforms object
and recording unclassified basenames (the directories reported with the
"Unknown platform" line). -/
def scanLoop : List (GPlatform × String) × List String → List DirEntry →
    List (GPlatform × String) × List String
  | acc, [] => acc
  | acc, e :: rest =>
    match detectPlatform e.files with
    | some p => scanLoop (objInsert acc.1 p e.path, acc.2) rest
    | none => scanLoop (acc.1, acc.2 ++ [e.base]) rest

/-- `scanBuildDir` of godot-export.js, returning the platforms object
together with the list of unmatched directory basenames it reports. -/
def scanBuildDir (entries : List DirEntry) : List (GPlatform × String) × List String :=
  scanLoop ([], []) entries

/-- `generateCommands` of godot-export.js: one `butler push` line per
entry of the platforms object, in object (insertion) order. -/
def generateCommands (platforms : List (GPlatform × String)) (target : String) : List String :=
  platforms.map (fun pr =>
    "butler push \"" ++ pr.2 ++ "\" \"" ++ target ++ ":" ++ (PLATFORMS pr.1).1 ++ "\"")

/-- Truthiness of an optional command-line argument in JavaScript:
`undefined` and the empty string are falsy. -/
def falsy : Option String → Bool
  | none => true
  | some s => s.isEmpty

/-- The `main` of godot-export.js as a function of its inputs: the argv
list, whether the build directory exists, and the scanned entries.
`Except.error c` is `process.exit(c)`; `Except.ok` carries the emitted
butler commands. -/
def main (argv : List String) (dirExists : Bool) (entries : List DirEntry) :
    Except Nat (List String) :=
  let buildDir := argv[2]?
  let target := argv[3]?
  if falsy buildDir || falsy target then .error 1
  else if !dirExists then .error 1
  else
    let platforms := (scanBuildDir entries).1
    if platforms.length = 0 then .error 1
    else .ok (generateCommands platforms (target.getD ""))

end Godot

namespace Renpy

/-- The platform tags of renpy-publish.js, named after the keys of its
`PLATFORMS` object.  `pc` is the Windows tag (name `Windows`, channel
`windows`). -/
inductive RPlatform
  | pc
  | mac
  | linux
  | web
deriving DecidableEq, Repr

/-- The `channel` field of each `PLATFORMS` entry in renpy-publish.js. -/
def channelOf : RPlatform → String
  | .pc => "windows"
  | .mac => "osx"
  | .linux => "linux"
  | .web => "html5"

/-- The `name` field of each `PLATFORMS` entry in renpy-publish.js. -/
def nameOf : RPlatform → String
  | .pc => "Windows"
  | .mac => "macOS"
  | .linux => "Linux"
  | .web => "Web"

/-- The `check` predicate of each `PLATFORMS` entry in renpy-publish.js,
applied to a directory listing. -/
def check : RPlatform → List String → Bool
  | .pc, files => files.any (fun f => jsEndsWith f ".exe" && !jsIncludes f "mac")
  | .mac, files => files.any (fun f => jsEndsWith f ".app" || jsIncludes f "mac" || jsIncludes f "-mac")
  | .linux, files => files.any (fun f => jsIncludes (jsToLower f) "linux" && !jsIncludes f ".exe")
  | .web, files => decide ("index.html" ∈ files) || files.any (fun f => jsEndsWith f "web.zip")

/-- The declaration order of the `PLATFORMS` object keys, which is the
order `Object.entries` iterates them in `detectPlatform`. -/
def platformOrder : List RPlatform :=
  [.pc, .mac, .linux, .web]

/-- `detectPlatform` of renpy-publish.js: first predicate in table order
that accepts the listing wins; otherwise substring heuristics on the
lower-cased directory basename; otherwise null. -/
def detectPlatform (files : List String) (base : String) : Option RPlatform :=
  match platformOrder.find? (fun p => check p files) with
  | some p => some p
  | none =>
    let name := jsToLower base
    if jsIncludes name "win" then some .pc
    else if jsIncludes name "mac" then some .mac
    else if jsIncludes name "linux" then some .linux
    else if jsIncludes name "web" then some .web
    else none

end Renpy

namespace Publish

/-- The external world of publish.js: which paths `fs.existsSync`
reports as present, and whether `execSync` of a given command line
returns normally (`true`) or throws (`false`, covering both a non-zero
exit and a failure to start the tool). -/
structure Env where
  pathExists : String → Bool
  execOk : String → Bool

/-- The options object passed to `pushChannel`. -/
structure PushOpts where
  version : Option String
  dryRun : Bool
  ignore : List String

/-- The parsed config file of publish.js: the `user` and `game` fields
may be absent, `channels` is the entry list of the `channels` object. -/
structure Config where
  user : Option String
  game : Option String
  channels : List (String × String)
  version : Option String
  ignore : List String

/-- The butler command line built by `pushChannel`: base push command,
then `--userversion` when a version is configured, then `--dry-run` when
requested, then one `--ignore` per pattern. -/
def buildCmd (user game channel sourcePath : String) (opts : PushOpts) : String :=
  let target := user ++ "/" ++ game ++ ":" ++ channel
  let cmd := "butler push \"" ++ sourcePath ++ "\" \"" ++ target ++ "\""
  let cmd := match opts.version with
    | some v => cmd ++ " --userversion \"" ++ v ++ "\""
    | none => cmd
  let cmd := if opts.dryRun then cmd ++ " --dry-run" else cmd
  opts.ignore.foldl (fun acc pat => acc ++ " --ignore \"" ++ pat ++ "\"") cmd

/-- `pushChannel` of publish.js.  Returns the boolean outcome together
with the commands it handed to the external tool: a missing source path
short-circuits to `false` with no execution; otherwise the built command
is executed (note: also when `dryRun` is set — the flag is passed to the
tool) and the outcome mirrors the execution result, any thrown error
being caught and converted to `false`. -/
def pushChannel (env : Env) (user game channel sourcePath : String) (opts : PushOpts) :
    Bool × List String :=
  if env.pathExists sourcePath then
    let cmd := buildCmd user game channel sourcePath opts
    (env.execOk cmd, [cmd])
  else (false, [])

/-- The per-channel loop of `main` in publish.js: sequentially push each
channel, collecting `{channel, success}` records and the executed
commands. -/
def pushLoop (env : Env) (user game : String) (opts : PushOpts) :
    List (String × String) → List (String × Bool) × List String
  | [] => ([], [])
  | ch :: rest =>
    let r := pushChannel env user game ch.1 ch.2 opts
    let tail := pushLoop env user game opts rest
    ((ch.1, r.1) :: tail.1, r.2 ++ tail.2)

/-- The whole publish pass of `main`: run the loop over the configured
channels with the options `main` assembles from the config and the
`--dry-run` flag. -/
def publishAll (env : Env) (user game : String) (version : Option String)
    (ignore : List String) (dryRun : Bool) (channels : List (String × String)) :
    List (String × Bool) × List String :=
  pushLoop env user game ⟨version, dryRun, ignore⟩ channels

/-- The final summary block of `main`: one line per recorded result, in
order. -/
def summaryLines (results : List (String × Bool)) : List String :=
  results.map (fun r => r.1 ++ ": " ++ (if r.2 then "✅ OK" else "❌ FAILED"))

/-- Truthiness of a possibly-absent string in JavaScript. -/
def falsy : Option String → Bool
  | none => true
  | some s => s.isEmpty

/-- The `main` of publish.js as a function of its inputs, returning the
process exit code together with the recorded results.  Exit code 1 on
each fatal precondition (no config argument, config file missing, `user`
or `game` field falsy, butler not found, zero channels); otherwise the
loop runs, the summary and the best-effort status check follow (the
status check catches its own errors), and the process ends with code
0 regardless of the per-channel outcomes. -/
def main (env : Env) (configArg : Option String) (configExists : Bool)
    (cfg : Config) (butlerOk dryRun : Bool) : Nat × List (String × Bool) :=
  if falsy configArg then (1, [])
  else if !configExists then (1, [])
  else if falsy cfg.user || falsy cfg.game then (1, [])
  else if !butlerOk then (1, [])
  else if cfg.channels.length = 0 then (1, [])
  else
    let r := publishAll env (cfg.user.getD "") (cfg.game.getD "") cfg.version
      cfg.ignore dryRun cfg.channels
    (0, r.1)

/-- An environment in which every source path exists and every external
invocation succeeds: under it every channel succeeds. -/
def envAllOk : Env := ⟨fun _ => true, fun _ => true⟩

end Publish

/-- First-detection deduplication: the keys a JS object accumulates when
the listed keys are assigned in order, i.e. the input list with every
repeat of an earlier key dropped.  `seen` holds the keys already
present. -/
def newKeys : List Godot.GPlatform → List Godot.GPlatform → List Godot.GPlatform
  | _, [] => []
  | seen, t :: rest =>
    if t ∈ seen then newKeys seen rest else t :: newKeys (t :: seen) rest

/-- The path of the last entry in the list that classifies to the tag
`k`, if any. -/
def lastPath (k : Godot.GPlatform) : List Godot.DirEntry → Option String
  | [] => none
  | e :: rest =>
    match lastPath k rest with
    | some p => some p
    | none => if Godot.detectPlatform e.files = some k then some e.path else none

section StringLemmas

theorem isPrefixOf_append {l s t : List Char} (h : l.isPrefixOf s = true) :
    l.isPrefixOf (s ++ t) = true := by
  induction l generalizing s with
  | nil => simp [List.isPrefixOf]
  | cons a as ih =>
    cases s with
    | nil => simp [List.isPrefixOf] at h
    | cons b bs =>
      simp only [List.isPrefixOf, Bool.and_eq_true] at h ⊢
      exact ⟨h.1, ih h.2⟩

theorem isPrefixOf_refl (l : List Char) : l.isPrefixOf l = true := by
  induction l with
  | nil => simp [List.isPrefixOf]
  | cons a as ih => simp [List.isPrefixOf, ih]

theorem listIncludes_append_left {sub s : List Char} (t : List Char)
    (h : listIncludes sub s = true) : listIncludes sub (s ++ t) = true := by
  induction s with
  | nil =>
    simp only [listIncludes, List.isEmpty_iff] at h
    subst h
    cases t with
    | nil => simp [listIncludes]
    | cons c cs => simp [listIncludes, List.isPrefixOf]
  | cons c cs ih =>
    simp only [listIncludes, Bool.or_eq_true] at h
    rcases h with h | h
    · simp only [List.cons_append, listIncludes, Bool.or_eq_true]
      exact Or.inl (isPrefixOf_append h)
    · simp only [List.cons_append, listIncludes, Bool.or_eq_true]
      exact Or.inr (ih h)

theorem listIncludes_append_self (sub s : List Char) :
    listIncludes sub (s ++ sub) = true := by
  induction s with
  | nil =>
    cases sub with
    | nil => simp [listIncludes]
    | cons c cs => simp [listIncludes, isPrefixOf_refl]
  | cons c cs ih =>
    cases h : (c :: cs) ++ sub with
    | nil => simp at h
    | cons d ds =>
      simp only [List.cons_append, List.cons.injEq] at h
      simp only [List.cons_append, listIncludes, Bool.or_eq_true]
      exact Or.inr (h.2 ▸ ih)

theorem mem_of_isPrefixOf {l s : List Char} {a : Char}
    (h : l.isPrefixOf s = true) (ha : a ∈ l) : a ∈ s := by
  induction l generalizing s with
  | nil => simp at ha
  | cons b bs ih =>
    cases s with
    | nil => simp [List.isPrefixOf] at h
    | cons c cs =>
      simp only [List.isPrefixOf, Bool.and_eq_true, beq_iff_eq] at h
      rcases List.mem_cons.mp ha with rfl | ha

      · exact h.1 ▸ List.mem_cons_self _ _
      · exact List.mem_cons_of_mem _ (ih h.2 ha)

theorem mem_of_isSuffixOf {l s : List Char} {a : Char}
    (h : l.isSuffixOf s = true) (ha : a ∈ l) : a ∈ s := by
  have : a ∈ s.reverse := mem_of_isPrefixOf h (List.mem_reverse.mpr ha)
  exact List.mem_reverse.mp this

theorem listIncludes_singleton_iff (c : Char) (l : List Char) :
    listIncludes [c] l = true ↔ c ∈ l := by
  induction l with
  | nil => simp [listIncludes]
  | cons d ds ih =>
    simp only [listIncludes, Bool.or_eq_true, List.isPrefixOf, Bool.and_eq_true,
      beq_iff_eq, List.mem_cons]
    constructor
    · rintro (⟨rfl, -⟩ | h)
      · exact Or.inl rfl
      · exact Or.inr (ih.mp h)
    · rintro (rfl | h)
      · exact Or.inl ⟨rfl, by simp [List.isPrefixOf]⟩
      · exact Or.inr (ih.mpr h)

theorem mem_of_jsEndsWith {s suffix : String} {a : Char}
    (h : jsEndsWith s suffix = true) (ha : a ∈ suffix.data) : a ∈ s.data :=
  mem_of_isSuffixOf h ha

theorem jsIncludes_dot_iff (s : String) : jsIncludes s "." = true ↔ '.' ∈ s.data := by
  have : jsIncludes s "." = listIncludes ['.'] s.data := rfl
  rw [this, listIncludes_singleton_iff]

end StringLemmas

namespace Publish

theorem pushChannel_fst (env : Env) (u g c p : String) (opts : PushOpts) :
    (pushChannel env u g c p opts).1 = (env.pathExists p && env.execOk (buildCmd u g c p opts)) := by
  by_cases h : env.pathExists p <;> simp [pushChannel, h]

theorem pushLoop_fst (env : Env) (u g : String) (opts : PushOpts)
    (chans : List (String × String)) :
    (pushLoop env u g opts chans).1
      = chans.map (fun ch => (ch.1, (pushChannel env u g ch.1 ch.2 opts).1)) := by
  induction chans with
  | nil => rfl
  | cons ch rest ih => simp [pushLoop, ih]

theorem pushLoop_snd (env : Env) (u g : String) (opts : PushOpts)
    (chans : List (String × String)) :
    (pushLoop env u g opts chans).2
      = (chans.filter (fun ch => env.pathExists ch.2)).map
          (fun ch => buildCmd u g ch.1 ch.2 opts) := by
  induction chans with
  | nil => rfl
  | cons ch rest ih =>
    by_cases h : env.pathExists ch.2 <;>
      simp [pushLoop, pushChannel, h, ih, List.filter_cons]

theorem data_append (s t : String) : (s ++ t).data = s.data ++ t.data := by
  cases s; cases t; rfl

theorem jsIncludes_append_left (s t : String) (sub : String)
    (h : jsIncludes s sub = true) : jsIncludes (s ++ t) sub = true := by
  simp only [jsIncludes, data_append]
  exact listIncludes_append_left _ h

theorem jsIncludes_append_self (s sub : String) : jsIncludes (s ++ sub) sub = true := by
  simp only [jsIncludes, data_append]
  exact listIncludes_append_self _ _

theorem jsIncludes_foldl (sub a1 a2 : String)
    (l : List String) (acc : String) (h : jsIncludes acc sub = true) :
    jsIncludes (l.foldl (fun a pat => a ++ a1 ++ pat ++ a2) acc) sub = true := by
  induction l generalizing acc with
  | nil => exact h
  | cons x xs ih =>
    exact ih _ (jsIncludes_append_left _ _ _
      (jsIncludes_append_left _ _ _ (jsIncludes_append_left _ _ _ h)))

theorem buildCmd_dry_run (u g c p : String) (v : Option String) (ign : List String) :
    jsIncludes (buildCmd u g c p ⟨v, true, ign⟩) " --dry-run" = true := by
  unfold buildCmd
  simp only [if_true]
  exact jsIncludes_foldl _ _ _ ign _ (jsIncludes_append_self _ _)

end Publish

/-- Claim C1. -/
theorem publish_failure_isolation (env : Publish.Env) (u g : String) (v : Option String)
    (ign : List String) (d : Bool) (chans : List (String × String)) :
    (Publish.publishAll env u g v ign d chans).1
      = chans.map (fun ch => (ch.1, (Publish.pushChannel env u g ch.1 ch.2 ⟨v, d, ign⟩).1))
  ∧ ((Publish.publishAll env u g v ign d chans).1).map Prod.fst = chans.map Prod.fst
  ∧ Publish.summaryLines (Publish.publishAll env u g v ign d chans).1
      = chans.map (fun ch => ch.1 ++ ": " ++
          (if (Publish.pushChannel env u g ch.1 ch.2 ⟨v, d, ign⟩).1 then "✅ OK" else "❌ FAILED")) := by
  refine ⟨Publish.pushLoop_fst env u g _ chans, ?_, ?_⟩
  · simp [Publish.publishAll, Publish.pushLoop_fst]
  · simp [Publish.publishAll, Publish.pushLoop_fst, Publish.summaryLines]

/-- Claim C2, amended. -/
theorem dry_run_executes_flagged (env : Publish.Env) (u g : String) (v : Option String)
    (ign : List String) (chans : List (String × String)) :
    (Publish.publishAll env u g v ign true chans).1
      = chans.map (fun ch => (ch.1,
          env.pathExists ch.2 && env.execOk (Publish.buildCmd u g ch.1 ch.2 ⟨v, true, ign⟩)))
  ∧ (Publish.publishAll env u g v ign true chans).2
      = (chans.filter (fun ch => env.pathExists ch.2)).map
          (fun ch => Publish.buildCmd u g ch.1 ch.2 ⟨v, true, ign⟩)
  ∧ (∀ u' g' c' p' : String, ∀ v' : Option String, ∀ ign' : List String,
      jsIncludes (Publish.buildCmd u' g' c' p' ⟨v', true, ign'⟩) " --dry-run" = true) := by
  refine ⟨?_, Publish.pushLoop_snd env u g _ chans, fun u' g' c' p' v' ign' => Publish.buildCmd_dry_run u' g' c' p' v' ign'⟩
  simp [Publish.publishAll, Publish.pushLoop_fst, Publish.pushChannel_fst]

/-- Claim C2, counterexample. -/
theorem dry_run_claim_cex :
    ((Publish.publishAll ⟨fun _ => true, fun _ => true⟩ "alice" "mygame" none [] true
        [("html5", "./dist")]).2).length = 1
  ∧ (1 : Nat) ≠ 0
  ∧ (Publish.publishAll ⟨fun _ => false, fun _ => true⟩ "alice" "mygame" none [] true
        [("html5", "./dist")]).1 = [("html5", false)] :=
  ⟨rfl, by decide, rfl⟩

/-- Claim C9. -/
theorem partial_failure_exit_code (env : Publish.Env) (configArg : Option String)
    (configExists : Bool) (cfg : Publish.Config) (butlerOk dryRun : Bool) :
    (Publish.main env configArg configExists cfg butlerOk dryRun).1
      = (Publish.main Publish.envAllOk configArg configExists cfg butlerOk dryRun).1
  ∧ ((Publish.main Publish.envAllOk configArg configExists cfg butlerOk dryRun).2).all
      (fun r => r.2) = true := by
  constructor
  · unfold Publish.main
    split_ifs <;> rfl
  · unfold Publish.main
    split_ifs <;>
      simp [Publish.publishAll, Publish.pushLoop_fst, Publish.pushChannel_fst,
        Publish.envAllOk, List.all_eq_true]

namespace Godot

theorem objInsert_keys (m : List (GPlatform × String)) (k : GPlatform) (v : String) :
    (objInsert m k v).map Prod.fst =
      if k ∈ m.map Prod.fst then m.map Prod.fst else m.map Prod.fst ++ [k] := by
  induction m with
  | nil => simp [objInsert]
  | cons pr rest ih =>
    by_cases h : pr.1 = k
    · simp [objInsert, h]
    · by_cases h2 : k ∈ rest.map Prod.fst
      · simp [objInsert, h, ih, h2, Ne.symm h]
      · simp [objInsert, h, ih, h2, Ne.symm h]

theorem objLookup_insert_self (m : List (GPlatform × String)) (k : GPlatform) (v : String) :
    objLookup (objInsert m k v) k = some v := by
  induction m with
  | nil => simp [objInsert, objLookup]
  | cons pr rest ih =>
    by_cases h : pr.1 = k <;> simp [objInsert, objLookup, h, ih]

theorem objLookup_insert_ne (m : List (GPlatform × String)) (k : GPlatform) (v : String)
    (k' : GPlatform) (h : k ≠ k') :
    objLookup (objInsert m k v) k' = objLookup m k' := by
  induction m with
  | nil => simp [objInsert, objLookup, h]
  | cons pr rest ih =>
    by_cases h1 : pr.1 = k
    · simp [objInsert, h1, objLookup, h]
    · by_cases h2 : pr.1 = k' <;> simp [objInsert, h1, objLookup, h2, ih, Ne.symm h]

end Godot

theorem newKeys_congr (l : List Godot.GPlatform) :
    ∀ s₁ s₂ : List Godot.GPlatform, (∀ x, x ∈ s₁ ↔ x ∈ s₂) →
      newKeys s₁ l = newKeys s₂ l := by
  induction l with
  | nil => intro _ _ _; rfl
  | cons t rest ih =>
    intro s₁ s₂ h
    simp only [newKeys]
    by_cases ht : t ∈ s₁
    · rw [if_pos ht, if_pos ((h t).mp ht)]
      exact ih _ _ h
    · rw [if_neg ht, if_neg (fun c => ht ((h t).mpr c))]
      exact congrArg (t :: ·) (ih _ _ (fun x => by simp [List.mem_cons, h x]))

theorem newKeys_of_nodup (l : List Godot.GPlatform) :
    ∀ seen, l.Nodup → (∀ t ∈ l, t ∉ seen) → newKeys seen l = l := by
  induction l with
  | nil => intro _ _ _; rfl
  | cons t rest ih =>
    intro seen hn hs
    have ht : t ∉ seen := hs t (List.mem_cons_self t rest)
    simp only [newKeys, if_neg ht]
    refine congrArg (t :: ·) (ih _ (List.Nodup.of_cons hn) ?_)
    intro x hx
    simp only [List.mem_cons, not_or]
    exact ⟨fun e => (List.nodup_cons.mp hn).1 (e ▸ hx), hs x (List.mem_cons_of_mem _ hx)⟩

theorem mem_newKeys (l : List Godot.GPlatform) :
    ∀ (seen : List Godot.GPlatform) (x : Godot.GPlatform),
      x ∈ newKeys seen l ↔ (x ∉ seen ∧ x ∈ l) := by
  induction l with
  | nil => intro seen x; simp [newKeys]
  | cons t rest ih =>
    intro seen x
    simp only [newKeys]
    by_cases ht : t ∈ seen
    · rw [if_pos ht, ih]
      simp only [List.mem_cons]
      constructor
      · rintro ⟨hs, hr⟩
        exact ⟨hs, Or.inr hr⟩
      · rintro ⟨hs, (rfl | hr)⟩
        · exact absurd ht hs
        · exact ⟨hs, hr⟩
    · rw [if_neg ht]
      simp only [List.mem_cons, ih]
      constructor
      · rintro (rfl | ⟨hs, hr⟩)
        · exact ⟨ht, Or.inl rfl⟩
        · exact ⟨fun c => hs (Or.inr c), Or.inr hr⟩
      · rintro ⟨hs, (rfl | hr)⟩
        · exact Or.inl rfl
        · by_cases hxt : x = t
          · exact Or.inl hxt
          · exact Or.inr ⟨by simp [List.mem_cons, hxt, hs], hr⟩

theorem scanLoop_keys (l : List Godot.DirEntry) :
    ∀ (m : List (Godot.GPlatform × String)) (u : List String),
    ((Godot.scanLoop (m, u) l).1).map Prod.fst
      = m.map Prod.fst
        ++ newKeys (m.map Prod.fst) (l.filterMap (fun e => Godot.detectPlatform e.files)) := by
  induction l with
  | nil => intro m u; simp [Godot.scanLoop, newKeys]
  | cons e rest ih =>
    intro m u
    cases hd : Godot.detectPlatform e.files with
    | none => simp [Godot.scanLoop, hd, ih, List.filterMap_cons]
    | some p =>
      simp only [Godot.scanLoop, hd, List.filterMap_cons]
      rw [ih, Godot.objInsert_keys]
      by_cases hc : p ∈ m.map Prod.fst
      · rw [if_pos hc]
        simp only [newKeys, if_pos hc]
      · rw [if_neg hc]
        simp only [newKeys, if_neg hc, List.append_assoc, List.singleton_append]
        refine congrArg (m.map Prod.fst ++ ·) (congrArg (p :: ·) ?_)
        exact newKeys_congr _ _ _ (fun x => by
          simp [List.mem_append, List.mem_cons, Or.comm])

theorem scanLoop_unmatched (l : List Godot.DirEntry) :
    ∀ (m : List (Godot.GPlatform × String)) (u : List String),
    (Godot.scanLoop (m, u) l).2
      = u ++ (l.filter (fun e => (Godot.detectPlatform e.files).isNone)).map
          Godot.DirEntry.base := by
  induction l with
  | nil => intro m u; simp [Godot.scanLoop]
  | cons e rest ih =>
    intro m u
    cases hd : Godot.detectPlatform e.files with
    | none => simp [Godot.scanLoop, hd, ih, List.filter_cons]
    | some p => simp [Godot.scanLoop, hd, ih, List.filter_cons]

theorem scanLoop_lookup (l : List Godot.DirEntry) :
    ∀ (m : List (Godot.GPlatform × String)) (u : List String) (k : Godot.GPlatform),
    Godot.objLookup (Godot.scanLoop (m, u) l).1 k
      = match lastPath k l with
        | some p => some p
        | none => Godot.objLookup m k := by
  induction l with
  | nil => intro m u k; simp [Godot.scanLoop, lastPath]
  | cons e rest ih =>
    intro m u k
    cases hd : Godot.detectPlatform e.files with
    | none =>
      simp only [Godot.scanLoop, hd]
      rw [ih]
      cases hl : lastPath k rest with
      | some q => simp [lastPath, hl]
      | none => simp [lastPath, hl, hd]
    | some p =>
      simp only [Godot.scanLoop, hd]
      rw [ih]
      cases hl : lastPath k rest with
      | some q => simp [lastPath, hl]
      | none =>
        simp only [lastPath, hl, hd]
        by_cases hk : p = k
        · subst hk
          simp [Godot.objLookup_insert_self]
        · have : (some p = some k) = False := by simp [hk]
          simp [this, Godot.objLookup_insert_ne m p e.path k hk]

theorem scanLoop_keys_nodup (l : List Godot.DirEntry) :
    ∀ (m : List (Godot.GPlatform × String)) (u : List String),
    (m.map Prod.fst).Nodup → (((Godot.scanLoop (m, u) l).1).map Prod.fst).Nodup := by
  induction l with
  | nil => intro m u h; simpa [Godot.scanLoop]
  | cons e rest ih =>
    intro m u h
    cases hd : Godot.detectPlatform e.files with
    | none =>
      simp only [Godot.scanLoop, hd]
      exact ih _ _ h
    | some p =>
      simp only [Godot.scanLoop, hd]
      refine ih _ _ ?_
      rw [Godot.objInsert_keys]
      by_cases hc : p ∈ m.map Prod.fst
      · rwa [if_pos hc]
      · rw [if_neg hc]
        exact List.Nodup.append h (List.nodup_singleton p)
          (fun a ha hp => hc ((List.mem_singleton.mp hp) ▸ ha))

theorem length_filterMap_eq (l : List Godot.DirEntry) :
    (l.filterMap (fun e => Godot.detectPlatform e.files)).length
      = (l.filter (fun e => (Godot.detectPlatform e.files).isSome)).length := by
  induction l with
  | nil => rfl
  | cons e rest ih =>
    cases hd : Godot.detectPlatform e.files <;>
      simp [List.filterMap_cons, List.filter_cons, hd, ih]

theorem length_filter_isSome_add_isNone (l : List Godot.DirEntry) :
    (l.filter (fun e => (Godot.detectPlatform e.files).isSome)).length
      + (l.filter (fun e => (Godot.detectPlatform e.files).isNone)).length
      = l.length := by
  induction l with
  | nil => rfl
  | cons e rest ih =>
    cases hd : Godot.detectPlatform e.files <;>
      simp [List.filter_cons, hd, ← ih] <;> omega

/-- Claim C10. -/
theorem scan_duplicate_tag_last_wins (entries : List Godot.DirEntry) (k : Godot.GPlatform) :
    Godot.objLookup (Godot.scanBuildDir entries).1 k = lastPath k entries
  ∧ (((Godot.scanBuildDir entries).1).map Prod.fst).Nodup
  ∧ (Godot.scanBuildDir entries).2
      = (entries.filter (fun e => (Godot.detectPlatform e.files).isNone)).map
          Godot.DirEntry.base := by
  refine ⟨?_, ?_, ?_⟩
  · rw [Godot.scanBuildDir, scanLoop_lookup]
    cases lastPath k entries <;> simp [Godot.objLookup]
  · exact scanLoop_keys_nodup entries [] [] (by simp)
  · rw [Godot.scanBuildDir, scanLoop_unmatched]
    simp

/-- Claim C3, amended. -/
theorem scan_command_order (entries : List Godot.DirEntry) (target : String) :
    ((Godot.scanBuildDir entries).1).map Prod.fst
      = newKeys [] (entries.filterMap (fun e => Godot.detectPlatform e.files))
  ∧ Godot.generateCommands (Godot.scanBuildDir entries).1 target
      = ((Godot.scanBuildDir entries).1).map (fun pr =>
          "butler push \"" ++ pr.2 ++ "\" \"" ++ target ++ ":"
            ++ (Godot.PLATFORMS pr.1).1 ++ "\"") :=
  ⟨by simpa using scanLoop_keys entries [] [], rfl⟩

/-- Claim C3, counterexample. -/
theorem scan_spec_order_cex :
    ((Godot.scanBuildDir [⟨"./build/linux", "linux", [⟨"game", true⟩]⟩,
        ⟨"./build/windows", "windows", [⟨"game.exe", true⟩]⟩]).1).map Prod.fst
      = [Godot.GPlatform.linux, Godot.GPlatform.windows]
  ∧ Godot.platformSpecOrder.filter
        (fun p => p ∈ ((Godot.scanBuildDir [⟨"./build/linux", "linux", [⟨"game", true⟩]⟩,
          ⟨"./build/windows", "windows", [⟨"game.exe", true⟩]⟩]).1).map Prod.fst)
      = [Godot.GPlatform.windows, Godot.GPlatform.linux]
  ∧ ([Godot.GPlatform.linux, Godot.GPlatform.windows]
      ≠ [Godot.GPlatform.windows, Godot.GPlatform.linux]) := by
  refine ⟨by decide, by decide, by decide⟩

/-- Claim C4, amended: for every tree the unmatched list has exactly M
entries and N + M equals the count of immediate subdirectories; the
matched mapping has one entry per distinct detected tag (duplicate-free
keys whose set is exactly the set of detected tags), hence exactly N
entries when the N classifiable subdirectories have pairwise distinct
tags. -/
theorem scan_entry_conservation (entries : List Godot.DirEntry) :
    ((Godot.scanBuildDir entries).2).length
      = (entries.filter (fun e => (Godot.detectPlatform e.files).isNone)).length
  ∧ (entries.filter (fun e => (Godot.detectPlatform e.files).isSome)).length
      + (entries.filter (fun e => (Godot.detectPlatform e.files).isNone)).length
      = entries.length
  ∧ (((Godot.scanBuildDir entries).1).map Prod.fst).Nodup
  ∧ (∀ p : Godot.GPlatform,
        p ∈ ((Godot.scanBuildDir entries).1).map Prod.fst
          ↔ p ∈ entries.filterMap (fun e => Godot.detectPlatform e.files))
  ∧ ((entries.filterMap (fun e => Godot.detectPlatform e.files)).Nodup →
        ((Godot.scanBuildDir entries).1).length
          = (entries.filter (fun e => (Godot.detectPlatform e.files).isSome)).length) := by
  have hkeys : ((Godot.scanBuildDir entries).1).map Prod.fst
      = newKeys [] (entries.filterMap (fun e => Godot.detectPlatform e.files)) := by
    simpa using scanLoop_keys entries [] []
  refine ⟨?_, length_filter_isSome_add_isNone entries,
    scanLoop_keys_nodup entries [] [] (by simp), ?_, ?_⟩
  · rw [Godot.scanBuildDir, scanLoop_unmatched]
    simp
  · intro p
    rw [hkeys, mem_newKeys]
    simp
  · intro h
    have hlen : ((Godot.scanBuildDir entries).1).length
        = (newKeys [] (entries.filterMap (fun e => Godot.detectPlatform e.files))).length := by
      rw [← hkeys, List.length_map]
    rw [hlen, newKeys_of_nodup _ [] h (by simp), length_filterMap_eq]

/-- Claim C4, witness discharging the distinct-tags hypothesis of the
conditional exact-count conjunct at a concrete tree. -/
theorem scan_entry_conservation_witness :
    (([⟨"./build/windows", "windows", [⟨"game.exe", true⟩]⟩,
       ⟨"./build/web", "web", [⟨"index.html", true⟩]⟩,
       ⟨"./build/notes", "notes", [⟨"readme.txt", true⟩]⟩] : List Godot.DirEntry).filterMap
        (fun e => Godot.detectPlatform e.files)).Nodup
  ∧ ((Godot.scanBuildDir [⟨"./build/windows", "windows", [⟨"game.exe", true⟩]⟩,
       ⟨"./build/web", "web", [⟨"index.html", true⟩]⟩,
       ⟨"./build/notes", "notes", [⟨"readme.txt", true⟩]⟩]).1).length
      = (([⟨"./build/windows", "windows", [⟨"game.exe", true⟩]⟩,
       ⟨"./build/web", "web", [⟨"index.html", true⟩]⟩,
       ⟨"./build/notes", "notes", [⟨"readme.txt", true⟩]⟩] : List Godot.DirEntry).filter
        (fun e => (Godot.detectPlatform e.files).isSome)).length :=
  ⟨by decide, (scan_entry_conservation _).2.2.2.2 (by decide)⟩

/-- Claim C4, counterexample. -/
theorem scan_conservation_cex :
    ((Godot.scanBuildDir [⟨"./b/alpha", "alpha", [⟨"game.exe", true⟩]⟩,
        ⟨"./b/beta", "beta", [⟨"other.exe", true⟩]⟩]).1).length = 1
  ∧ (([⟨"./b/alpha", "alpha", [⟨"game.exe", true⟩]⟩,
        ⟨"./b/beta", "beta", [⟨"other.exe", true⟩]⟩] : List Godot.DirEntry).filter
        (fun e => (Godot.detectPlatform e.files).isSome)).length = 2
  ∧ (1 : Nat) ≠ 2 := by
  refine ⟨by decide, by decide, by decide⟩

/-- Claim C6. -/
theorem godot_extensionless_linux (s : String) (hs : jsIncludes s "." = false) :
    Godot.detectPlatform [⟨s, true⟩] = some Godot.GPlatform.linux := by
  have hdot : '.' ∉ s.data := fun hm => by
    simp [(jsIncludes_dot_iff s).mpr hm] at hs
  have hne : "index.html" ≠ s := fun e => hdot (by rw [← e]; decide)
  have hsuf : ∀ suf : String, '.' ∈ suf.data → jsEndsWith s suf = false := by
    intro suf hm
    cases h : jsEndsWith s suf
    · rfl
    · exact absurd (mem_of_jsEndsWith h hm) hdot
  simp [Godot.detectPlatform, hne, hs, hsuf ".exe" (by decide), hsuf ".app" (by decide),
    hsuf ".zip" (by decide), hsuf ".apk" (by decide), hsuf ".aab" (by decide)]

/-- Claim C6, witness. -/
theorem godot_extensionless_linux_witness :
    jsIncludes "game" "." = false
  ∧ Godot.detectPlatform [⟨"game", true⟩] = some Godot.GPlatform.linux :=
  ⟨by decide, godot_extensionless_linux "game" (by decide)⟩

/-- Claim C5, amended. -/
theorem godot_exe_wins_without_web (files : List Godot.FileEntry)
    (h1 : "index.html" ∉ files.map Godot.FileEntry.name)
    (h2 : (files.map Godot.FileEntry.name).any (fun f => jsEndsWith f ".exe") = true)
    (h3 : files.any (fun e => !jsIncludes e.name "." && e.isFile) = true) :
    Godot.detectPlatform files = some Godot.GPlatform.windows
  ∧ some Godot.GPlatform.windows ≠ some Godot.GPlatform.linux := by
  refine ⟨?_, by decide⟩
  simp [Godot.detectPlatform, h1, h2]

/-- Claim C5, witness for the amended theorem. -/
theorem godot_exe_wins_without_web_witness :
    ("index.html" ∉ ([⟨"game.exe", true⟩, ⟨"game", true⟩] :
        List Godot.FileEntry).map Godot.FileEntry.name)
  ∧ Godot.detectPlatform [⟨"game.exe", true⟩, ⟨"game", true⟩]
      = some Godot.GPlatform.windows :=
  ⟨by decide, (godot_exe_wins_without_web _ (by decide) (by decide) (by decide)).1⟩

/-- Claim C5, counterexample. -/
theorem godot_exe_priority_cex :
    (([⟨"index.html", true⟩, ⟨"game.exe", true⟩, ⟨"game", true⟩] :
        List Godot.FileEntry).map Godot.FileEntry.name).any
        (fun f => jsEndsWith f ".exe") = true
  ∧ ([⟨"index.html", true⟩, ⟨"game.exe", true⟩, ⟨"game", true⟩] :
        List Godot.FileEntry).any (fun e => !jsIncludes e.name "." && e.isFile) = true
  ∧ Godot.detectPlatform [⟨"index.html", true⟩, ⟨"game.exe", true⟩, ⟨"game", true⟩]
      = some Godot.GPlatform.web
  ∧ some Godot.GPlatform.web ≠ some Godot.GPlatform.windows := by
  refine ⟨by decide, by decide, by decide, by decide⟩

/-- Claim C7. -/
theorem renpy_name_fallback (files : List String) (base : String)
    (h : Renpy.platformOrder.all (fun p => !Renpy.check p files) = true) :
    Renpy.detectPlatform files base
      = (if jsIncludes (jsToLower base) "win" then some Renpy.RPlatform.pc
         else if jsIncludes (jsToLower base) "mac" then some Renpy.RPlatform.mac
         else if jsIncludes (jsToLower base) "linux" then some Renpy.RPlatform.linux
         else if jsIncludes (jsToLower base) "web" then some Renpy.RPlatform.web
         else none)
  ∧ Renpy.channelOf Renpy.RPlatform.pc = "windows"
  ∧ Renpy.nameOf Renpy.RPlatform.pc = "Windows"
  ∧ Renpy.nameOf Renpy.RPlatform.mac = "macOS"
  ∧ Renpy.nameOf Renpy.RPlatform.linux = "Linux"
  ∧ Renpy.nameOf Renpy.RPlatform.web = "Web" := by
  refine ⟨?_, rfl, rfl, rfl, rfl, rfl⟩
  have hfind : Renpy.platformOrder.find? (fun p => Renpy.check p files) = none := by
    rw [List.find?_eq_none]
    intro p hp
    have hc := List.all_eq_true.mp h p hp
    simp only [Bool.not_eq_true'] at hc
    simp [hc]
  simp [Renpy.detectPlatform, hfind]

/-- Claim C7, witness. -/
theorem renpy_name_fallback_witness :
    Renpy.platformOrder.all (fun p => !Renpy.check p ["readme.txt"]) = true
  ∧ Renpy.detectPlatform ["readme.txt"] "Game-Win32" = some Renpy.RPlatform.pc :=
  ⟨by decide, by
    have h := renpy_name_fallback ["readme.txt"] "Game-Win32" (by decide)
    rw [h.1]
    decide⟩

/-- Claim C8. -/
theorem godot_exit_nonzero (argv : List String) (dirExists : Bool)
    (entries : List Godot.DirEntry) :
    ((Godot.falsy argv[2]? || Godot.falsy argv[3]?) = true →
        Godot.main argv dirExists entries = Except.error 1)
  ∧ (dirExists = false → Godot.main argv dirExists entries = Except.error 1)
  ∧ (((Godot.scanBuildDir entries).1).length = 0 →
        Godot.main argv dirExists entries = Except.error 1)
  ∧ (1 : Nat) ≠ 0 := by
  refine ⟨?_, ?_, ?_, by decide⟩
  · intro h
    rcases Bool.or_eq_true_iff.mp h with h' | h' <;> simp [Godot.main, h']
  · intro h
    subst h
    by_cases h1 : Godot.falsy argv[2]? = true <;>
      by_cases h2 : Godot.falsy argv[3]? = true <;> simp [Godot.main, h1, h2]
  · intro h
    by_cases h1 : Godot.falsy argv[2]? = true <;>
      by_cases h2 : Godot.falsy argv[3]? = true <;>
      by_cases h3 : dirExists <;> simp [Godot.main, h1, h2, h3, h]

/-- Claim C8, witness. -/
theorem godot_exit_nonzero_witness :
    (Godot.falsy ([] : List String)[2]? || Godot.falsy ([] : List String)[3]?) = true
  ∧ Godot.main [] false [] = Except.error 1 :=
  ⟨by decide, (godot_exit_nonzero [] false []).1 (by decide)⟩
